import Mathlib

/-!
Shallow embedding of the review-orchestration pipeline of the
`github-code-review-action` repository, together with proofs that check the
natural-language specification against the code.

Conventions of the embedding:
* JavaScript runtime values flowing out of `JSON.parse` are modelled by the
  `Json` inductive; JS truthiness is `jsTruthy`.
* A JS expression that can throw a `TypeError` (property access on `null`,
  calling a string method on a non-string, `.map` on a non-array) is modelled
  in the `Except Unit` monad; the enclosing `try/catch` blocks of the source
  are modelled by matching on the `Except`.
* TS `string`-typed machine integers and floats become `Int`/`ℚ`.
* `String.toUpperCase`/`toLowerCase` are modelled character-wise over the
  string's character list (the inputs compared against are all ASCII).
-/

namespace CodeReview

/-- Model of a JavaScript runtime value produced by `JSON.parse`. -/
inductive Json where
  | null
  | bool (b : Bool)
  | num (n : ℚ)
  | str (s : String)
  | arr (elems : List Json)
  | obj (fields : List (String × Json))

/-- JS truthiness of a value (`undefined` is represented by `Option.none`
at use sites; JSON values have no `NaN`). -/
def jsTruthy : Json → Bool
  | .null => false
  | .bool b => b
  | .num n => decide (n ≠ 0)
  | .str s => decide (s ≠ "")
  | .arr _ => true
  | .obj _ => true

/-- JS property access `j[key]`: throws on `null`, yields `undefined`
(`none`) on missing keys and on non-object primitives. -/
def jsGet (j : Json) (key : String) : Except Unit (Option Json) :=
  match j with
  | .null => .error ()
  | .obj fields => .ok ((fields.find? (fun p => p.1 == key)).map Prod.snd)
  | _ => .ok none

/-- JS `a || b` where `a` may be `undefined` (`none`). -/
def jsOr (a : Option Json) (b : Json) : Json :=
  match a with
  | some v => if jsTruthy v then v else b
  | none => b

/-- JS `a || b` where both operands may be `undefined` (`none`). -/
def jsOrOpt (a b : Option Json) : Option Json :=
  match a with
  | some v => if jsTruthy v then some v else b
  | none => b

/-- JS `.toUpperCase()` on the ASCII range, modelled character-wise. -/
def jsToUpper (s : String) : String := String.mk (s.data.map Char.toUpper)

/-- JS `.toLowerCase()` on the ASCII range, modelled character-wise. -/
def jsToLower (s : String) : String := String.mk (s.data.map Char.toLower)

/-- JS `String.prototype.includes` (substring containment). -/
def strIncludes (s pattern : String) : Bool :=
  go s.data pattern.data
where
  go : List Char → List Char → Bool
    | l, pat =>
      match l with
      | [] => pat.isEmpty
      | _ :: rest => pat.isPrefixOf l || go rest pat

/-- JS `.length` for the values this pipeline feeds it (arrays and strings
have a `length` property; other values yield `undefined`). -/
def jsLength : Json → Option Nat
  | .arr l => some l.length
  | .str s => some s.length
  | _ => none

/-- Rendering of `jsLength` inside a template literal
(`undefined` interpolates as the text "undefined"). -/
def jsLengthDisplay (j : Json) : String :=
  match jsLength j with
  | some n => toString n
  | none => "undefined"

/-- Interpolation of a JS value into a template literal. Numeric rendering
is approximated by the rational's representation; no claim depends on it. -/
def jsTemplateStr : Json → String
  | .null => "null"
  | .bool b => cond b "true" "false"
  | .num n => toString n
  | .str s => s
  | .arr _ => ""
  | .obj _ => "[object Object]"

/-- Canonical severity enum `IssueSeverity` from `src/types/index.ts`. -/
inductive IssueSeverity where
  | critical
  | error
  | warning
  | info
deriving DecidableEq, Repr

/-- String form of a severity, as the TS union-of-literals value. -/
def severityToJs : IssueSeverity → String
  | .critical => "critical"
  | .error => "error"
  | .warning => "warning"
  | .info => "info"

/-- Canonical category enum `ReviewCategory` from `src/types/index.ts`
(`bestPractices` stands for the literal `'best-practices'`). -/
inductive ReviewCategory where
  | security
  | performance
  | bugs
  | bestPractices
  | maintainability
  | documentation
  | style
deriving DecidableEq, Repr

/-- Normalized review issue (`ReviewIssue` in `src/types/index.ts`).
Fields the pipeline never branches on are carried as raw `Json`. -/
structure ReviewIssue where
  ruleId : Json
  severity : IssueSeverity
  category : ReviewCategory
  filePath : Json
  line : Option Json
  message : Option Json
  suggestion : Option Json
  impact : Option Json

/-- `CodeReviewAgent.mapSeverity` (code-reviewer.ts lines 285-297). -/
def mapSeverity (severity : String) : IssueSeverity :=
  let s := jsToUpper severity
  if s = "HIGH" ∨ s = "CRITICAL" then .critical
  else if s = "MEDIUM" ∨ s = "ERROR" then .error
  else if s = "LOW" ∨ s = "WARNING" then .warning
  else .info

/-- `CodeReviewAgent.mapCategory` (code-reviewer.ts lines 299-323) on a
string argument; the leading test models JS `if (!category)`. -/
def mapCategory (category : String) : ReviewCategory :=
  if category = "" then .bestPractices
  else
    let cat := jsToLower category
    if strIncludes cat "security" then .security
    else if strIncludes cat "performance" then .performance
    else if strIncludes cat "bug" then .bugs
    else if strIncludes cat "maintain" then .maintainability
    else if strIncludes cat "doc" then .documentation
    else if strIncludes cat "style" then .style
    else .bestPractices

/-- Runtime behavior of `mapSeverity` on an arbitrary JS value: the source
immediately calls `.toUpperCase()`, which throws on non-strings. -/
def mapSeverityJs (v : Json) : Except Unit IssueSeverity :=
  match v with
  | .str s => .ok (mapSeverity s)
  | _ => .error ()

/-- Runtime behavior of `mapCategory` on an arbitrary JS value: falsy values
take the `!category` early return; truthy non-strings throw at
`.toLowerCase()`. -/
def mapCategoryJs (v : Json) : Except Unit ReviewCategory :=
  if jsTruthy v then
    match v with
    | .str s => .ok (mapCategory s)
    | _ => .error ()
  else .ok .bestPractices

/-- `CodeReviewAgent.determineStatus` (code-reviewer.ts lines 339-349). -/
def determineStatus (issues : List ReviewIssue) : String :=
  let hasCritical := issues.any (fun i => decide (i.severity = .critical))
  let hasErrors := issues.any (fun i => decide (i.severity = .error))
  if hasCritical then "failure"
  else if hasErrors then "partial"
  else "success"

/-- The `severityLevels` array of `filterIssuesBySeverity`. -/
def severityLevels : List IssueSeverity := [.info, .warning, .error, .critical]

/-- JS `Array.prototype.indexOf` (first index, `-1` when absent). -/
def jsIndexOf (x : IssueSeverity) (l : List IssueSeverity) : Int :=
  match l.findIdx? (fun y => y == x) with
  | some i => (i : Int)
  | none => -1

/-- `CodeReviewAgent.filterIssuesBySeverity` (code-reviewer.ts lines
325-337); the threshold argument is `this.config.severityThreshold`, absent
(`none`) when not configured. -/
def filterIssuesBySeverity (severityThreshold : Option IssueSeverity)
    (issues : List ReviewIssue) : List ReviewIssue :=
  match severityThreshold with
  | none => issues
  | some threshold =>
    let thresholdIndex := jsIndexOf threshold severityLevels
    issues.filter (fun issue =>
      thresholdIndex ≤ jsIndexOf issue.severity severityLevels)

/-- Severity rank in the order info < warning < error < critical, as the
spec words it. -/
def severityRank : IssueSeverity → Nat
  | .info => 0
  | .warning => 1
  | .error => 2
  | .critical => 3

/-- Per-severity counters (`Record<IssueSeverity, number>`). -/
structure SeverityCounts where
  critical : Nat
  error : Nat
  warning : Nat
  info : Nat
deriving DecidableEq, Repr

/-- `CodeReviewAgent.countBySeverity` (code-reviewer.ts lines 369-376). -/
def countBySeverity (issues : List ReviewIssue) : SeverityCounts :=
  { critical := (issues.filter (fun i => decide (i.severity = .critical))).length
    error := (issues.filter (fun i => decide (i.severity = .error))).length
    warning := (issues.filter (fun i => decide (i.severity = .warning))).length
    info := (issues.filter (fun i => decide (i.severity = .info))).length }

/-- Per-category counters (`Record<ReviewCategory, number>`), all seven keys
always present. -/
structure CategoryCounts where
  security : Nat
  performance : Nat
  bugs : Nat
  bestPractices : Nat
  maintainability : Nat
  documentation : Nat
  style : Nat
deriving DecidableEq, Repr

/-- One loop step of `countByCategory`: `counts[issue.category] =
(counts[issue.category] || 0) + 1`. -/
def incrCategory (c : CategoryCounts) : ReviewCategory → CategoryCounts
  | .security => { c with security := c.security + 1 }
  | .performance => { c with performance := c.performance + 1 }
  | .bugs => { c with bugs := c.bugs + 1 }
  | .bestPractices => { c with bestPractices := c.bestPractices + 1 }
  | .maintainability => { c with maintainability := c.maintainability + 1 }
  | .documentation => { c with documentation := c.documentation + 1 }
  | .style => { c with style := c.style + 1 }

/-- `CodeReviewAgent.countByCategory` (code-reviewer.ts lines 378-394):
counters pre-seeded at zero for every category, then one pass. -/
def countByCategory (issues : List ReviewIssue) : CategoryCounts :=
  issues.foldl (fun counts issue => incrCategory counts issue.category)
    { security := 0, performance := 0, bugs := 0, bestPractices := 0
      maintainability := 0, documentation := 0, style := 0 }

/-- `CodeReviewAgent.buildSummary` (code-reviewer.ts lines 351-367). -/
def buildSummary (issues : List ReviewIssue) (filesReviewed : Json)
    (prIntent : Option Json) : String :=
  let criticalCount := (issues.filter (fun i => decide (i.severity = .critical))).length
  let errorCount := (issues.filter (fun i => decide (i.severity = .error))).length
  let warningCount := (issues.filter (fun i => decide (i.severity = .warning))).length
  let intro :=
    match prIntent with
    | some v => if jsTruthy v then "PR Intent: " ++ jsTemplateStr v ++ "\n\n" else ""
    | none => ""
  intro ++ "Reviewed " ++ jsLengthDisplay filesReviewed ++ " file(s). " ++
    "Found " ++ toString issues.length ++ " issue(s): " ++
    toString criticalCount ++ " critical, " ++ toString errorCount ++
    " errors, " ++ toString warningCount ++ " warnings."

/-- One file diff of a pull request (`FileDiff` in the types module). -/
structure FileDiff where
  filename : String
  status : String
  additions : Nat
  deletions : Nat
  patch : Option String

/-- Pull-request context (`PRContext` in `src/types/index.ts`); every field
is optional. `number` may be a string or a number, so it is carried as
`Json`. -/
structure PRContext where
  title : Option String := none
  description : Option String := none
  number : Option Json := none
  branch : Option String := none
  author : Option String := none
  changedFiles : Option (List String) := none
  baseBranch : Option String := none
  fileDiffs : Option (List FileDiff) := none

/-- Truthiness of an optional JS string (absent and empty are falsy). -/
def strTruthy : Option String → Bool
  | some s => decide (s ≠ "")
  | none => false

/-- Review rule (`ReviewRule` in `src/types/index.ts`). -/
structure ReviewRule where
  id : String
  name : String
  description : String
  severity : IssueSeverity
  category : ReviewCategory
  enabled : Bool
deriving DecidableEq, Repr

/-- `DEFAULT_RULES` from `src/config/default-rules.ts`. -/
def DEFAULT_RULES : List ReviewRule :=
  [ { id := "security-no-hardcoded-secrets", name := "No Hardcoded Secrets"
      description := "Detect hardcoded API keys, passwords, tokens, or secrets"
      severity := .critical, category := .security, enabled := true }
  , { id := "security-sql-injection", name := "SQL Injection Prevention"
      description := "Check for potential SQL injection vulnerabilities"
      severity := .critical, category := .security, enabled := true }
  , { id := "security-xss", name := "XSS Prevention"
      description := "Check for potential Cross-Site Scripting vulnerabilities"
      severity := .critical, category := .security, enabled := true }
  , { id := "security-command-injection", name := "Command Injection Prevention"
      description := "Check for potential command injection vulnerabilities"
      severity := .critical, category := .security, enabled := true }
  , { id := "performance-inefficient-loops", name := "Inefficient Loops"
      description := "Detect inefficient loop patterns and nested iterations"
      severity := .warning, category := .performance, enabled := true }
  , { id := "performance-memory-leaks", name := "Potential Memory Leaks"
      description := "Identify patterns that could lead to memory leaks"
      severity := .error, category := .performance, enabled := true }
  , { id := "performance-unnecessary-computations", name := "Unnecessary Computations"
      description := "Flag redundant or repeated computations that can be optimized"
      severity := .info, category := .performance, enabled := true }
  , { id := "bugs-null-reference", name := "Null Reference Errors"
      description := "Detect potential null or undefined reference errors"
      severity := .error, category := .bugs, enabled := true }
  , { id := "bugs-type-errors", name := "Type Errors"
      description := "Identify potential type mismatches and coercion issues"
      severity := .error, category := .bugs, enabled := true }
  , { id := "bugs-logic-errors", name := "Logic Errors"
      description := "Detect logical errors and incorrect conditional statements"
      severity := .error, category := .bugs, enabled := true }
  , { id := "best-practices-error-handling", name := "Proper Error Handling"
      description := "Ensure proper error handling and exception management"
      severity := .warning, category := .bestPractices, enabled := true }
  , { id := "best-practices-async-await", name := "Async/Await Usage"
      description := "Check for proper async/await patterns and promise handling"
      severity := .warning, category := .bestPractices, enabled := true }
  , { id := "best-practices-immutability", name := "Immutability"
      description := "Prefer immutable patterns and avoid direct state mutations"
      severity := .info, category := .bestPractices, enabled := true }
  , { id := "maintainability-complexity", name := "Code Complexity"
      description := "Flag functions with high cyclomatic complexity"
      severity := .warning, category := .maintainability, enabled := true }
  , { id := "maintainability-function-length", name := "Function Length"
      description := "Identify excessively long functions that should be refactored"
      severity := .info, category := .maintainability, enabled := true }
  , { id := "maintainability-duplication", name := "Code Duplication"
      description := "Detect duplicated code that should be extracted"
      severity := .warning, category := .maintainability, enabled := true }
  , { id := "documentation-missing-comments", name := "Missing Documentation"
      description := "Flag complex functions lacking documentation"
      severity := .info, category := .documentation, enabled := true }
  , { id := "documentation-outdated-comments", name := "Outdated Comments"
      description := "Identify comments that may be outdated or misleading"
      severity := .info, category := .documentation, enabled := true }
  , { id := "style-naming-conventions", name := "Naming Conventions"
      description := "Ensure consistent naming conventions"
      severity := .info, category := .style, enabled := false }
  , { id := "style-code-formatting", name := "Code Formatting"
      description := "Check for consistent code formatting"
      severity := .info, category := .style, enabled := false } ]

/-- `getEnabledRules` from `src/config/default-rules.ts`. -/
def getEnabledRules : List ReviewRule :=
  DEFAULT_RULES.filter (fun rule => rule.enabled)

/-- Fully-populated configuration, the result of `buildConfig`
(`ReviewConfig` with the fields `buildConfig` always sets). -/
structure ReviewConfig where
  maxFiles : Int
  maxBudgetUsd : ℚ
  model : String
  excludePatterns : List String
  includePatterns : List String
  cwd : String
  verbose : Bool
  severityThreshold : Option IssueSeverity
  rules : List ReviewRule
  prContext : Option PRContext

/-- User-supplied `Partial<ReviewConfig>`: an absent key is `none`. -/
structure PartialReviewConfig where
  maxFiles : Option Int := none
  maxBudgetUsd : Option ℚ := none
  model : Option String := none
  excludePatterns : Option (List String) := none
  includePatterns : Option (List String) := none
  cwd : Option String := none
  verbose : Option Bool := none
  severityThreshold : Option IssueSeverity := none
  rules : Option (List ReviewRule) := none
  prContext : Option PRContext := none

/-- Environment-derived default values of `DEFAULT_CONFIG` (part_002 lines
11-29): `parseInt(process.env.MAX_FILES_PER_REVIEW || '50')`,
`parseFloat(process.env.MAX_BUDGET_USD || '5.0')`, `process.env.MODEL ||
'claude-sonnet-4.5-20250929'`, `process.cwd()`, and `LOG_LEVEL === 'debug'`
are taken as parameters of the model. -/
structure EnvDefaults where
  maxFiles : Int := 50
  maxBudgetUsd : ℚ := 5
  model : String := "claude-sonnet-4.5-20250929"
  cwd : String := ""
  verbose : Bool := false

/-- The literal `excludePatterns` baseline of `DEFAULT_CONFIG` (part_002
lines 15-24). -/
def defaultExcludePatterns : List String :=
  [ "node_modules/**", "dist/**", "build/**", "*.min.js", "*.bundle.js"
  , "coverage/**", ".git/**", "*.log" ]

/-- The literal `includePatterns` of `DEFAULT_CONFIG` (part_002 line 25). -/
def defaultIncludePatterns : List String :=
  [ "**/*.ts", "**/*.js", "**/*.tsx", "**/*.jsx" ]

/-- JS `Map.prototype.set` on an insertion-ordered association list: an
existing key keeps its position with a replaced value, a new key is
appended. -/
def mapSet (m : List (String × ReviewRule)) (k : String) (v : ReviewRule) :
    List (String × ReviewRule) :=
  if m.any (fun p => p.1 == k) then
    m.map (fun p => if p.1 == k then (k, v) else p)
  else m ++ [(k, v)]

/-- `new Map(entries)`: inserting each entry in order. -/
def mapFromList (l : List (String × ReviewRule)) : List (String × ReviewRule) :=
  l.foldl (fun m p => mapSet m p.1 p.2) []

/-- `mergeRules` from part_002 lines 59-72: seed a Map keyed by rule id with
the default rules, `set` each user rule over it, take the values, and keep
only enabled rules. -/
def mergeRules (defaultRules userRules : List ReviewRule) : List ReviewRule :=
  let rulesMap := mapFromList (defaultRules.map (fun rule => (rule.id, rule)))
  let rulesMap := userRules.foldl (fun m rule => mapSet m rule.id rule) rulesMap
  (rulesMap.map Prod.snd).filter (fun rule => rule.enabled)

/-- `buildConfig` from part_002 lines 34-53: object spread of the defaults
and the user config, then the rule merge and the additive exclude-pattern
merge. -/
def buildConfig (env : EnvDefaults) (userConfig : PartialReviewConfig) :
    ReviewConfig :=
  { maxFiles := userConfig.maxFiles.getD env.maxFiles
    maxBudgetUsd := userConfig.maxBudgetUsd.getD env.maxBudgetUsd
    model := userConfig.model.getD env.model
    includePatterns := userConfig.includePatterns.getD defaultIncludePatterns
    cwd := userConfig.cwd.getD env.cwd
    verbose := userConfig.verbose.getD env.verbose
    severityThreshold :=
      match userConfig.severityThreshold with
      | some t => some t
      | none => some .info
    prContext := userConfig.prContext
    rules :=
      match userConfig.rules with
      | some rs => mergeRules DEFAULT_RULES rs
      | none => getEnabledRules
    excludePatterns :=
      match userConfig.excludePatterns with
      | some ps => defaultExcludePatterns ++ ps
      | none => defaultExcludePatterns }

/-- `validateConfig` from part_002 lines 77-89. The guards transcribe the
source's `config.maxFiles && config.maxFiles <= 0` (JS truthiness of a
number is `≠ 0`); the API-key presence check reads the environment, taken
here as the `apiKey` parameter (an empty string is falsy). -/
def validateConfig (config : ReviewConfig) (apiKey : Option String) :
    Except String Unit :=
  if config.maxFiles ≠ 0 ∧ config.maxFiles ≤ 0 then
    .error "maxFiles must be greater than 0"
  else if config.maxBudgetUsd ≠ 0 ∧ config.maxBudgetUsd ≤ 0 then
    .error "maxBudgetUsd must be greater than 0"
  else if strTruthy apiKey = false then
    .error "ANTHROPIC_API_KEY environment variable is required"
  else .ok ()

/-- The two brace characters, written by code point to keep string literals
free of braces. -/
def openBraceChar : Char := Char.ofNat 123

/-- Closing brace character (code point 125). -/
def closeBraceChar : Char := Char.ofNat 125

/-- Index of the last occurrence of a character in a list. -/
def lastIdxOf (c : Char) (cs : List Char) : Option Nat :=
  match cs.reverse.findIdx? (fun x => x == c) with
  | some k => some (cs.length - 1 - k)
  | none => none

/-- The regex match `resultText.match(/\x7b[\s\S]*\x7d/)` of
`parseResults`: the span from the first opening brace to the last closing
brace, provided the latter comes after the former; otherwise no match. -/
def extractBraceSpan (s : String) : Option String :=
  let cs := s.data
  match cs.findIdx? (fun c => c == openBraceChar), lastIdxOf closeBraceChar cs with
  | some i, some j =>
    if i < j then some (String.mk ((cs.drop i).take (j - i + 1))) else none
  | _, _ => none

/-- The anonymous record `parseResults` returns (code-reviewer.ts lines
234-245). -/
structure ParsedResults where
  summary : Option Json
  prIntent : Option Json
  impactAnalysis : Option Json
  issues : List ReviewIssue
  filesReviewed : Json
  edgeCases : Option Json
  missingTests : Option Json
  missingDocumentation : Option Json
  positives : Option Json
  recommendations : Option Json

/-- The fallback value `{ issues: [], filesReviewed: [] }` of
`parseResults` (code-reviewer.ts lines 279-282). -/
def emptyParsedResults : ParsedResults :=
  { summary := none, prIntent := none, impactAnalysis := none
    issues := [], filesReviewed := .arr [], edgeCases := none
    missingTests := none, missingDocumentation := none
    positives := none, recommendations := none }

/-- The per-issue mapping of `parseResults` (code-reviewer.ts lines
251-260), over an arbitrary array element. Thrown `TypeError`s (element is
`null`, non-string severity, truthy non-string category) surface as
`Except.error`. -/
def normIssue (issue : Json) : Except Unit ReviewIssue := do
  let ruleId ← jsGet issue "ruleId"
  let severityField ← jsGet issue "severity"
  let severity ← mapSeverityJs (jsOr severityField (.str "INFO"))
  let categoryField ← jsGet issue "category"
  let category ← mapCategoryJs (jsOr categoryField (.str ""))
  let file ← jsGet issue "file"
  let filePathField ← jsGet issue "filePath"
  let line ← jsGet issue "line"
  let description ← jsGet issue "description"
  let message ← jsGet issue "message"
  let recommendation ← jsGet issue "recommendation"
  let suggestion ← jsGet issue "suggestion"
  let impact ← jsGet issue "impact"
  return { ruleId := jsOr ruleId (.str "general")
           severity := severity
           category := category
           filePath := jsOr (jsOrOpt file filePathField) (.str "unknown")
           line := line
           message := jsOrOpt description message
           suggestion := jsOrOpt recommendation suggestion
           impact := impact }

/-- The successful branch of `parseResults` (code-reviewer.ts lines
249-273), applied to the value `JSON.parse` produced. `.map` on a truthy
non-array `issues` field throws. -/
def parsedToResults (parsed : Json) : Except Unit ParsedResults := do
  let issuesField ← jsGet parsed "issues"
  let issuesArr ←
    match jsOr issuesField (.arr []) with
    | .arr elems => Except.ok elems
    | _ => Except.error ()
  let issues ← issuesArr.mapM normIssue
  let summary ← jsGet parsed "summary"
  let prIntent ← jsGet parsed "prIntent"
  let impactAnalysis ← jsGet parsed "impactAnalysis"
  let filesReviewed ← jsGet parsed "filesReviewed"
  let edgeCases ← jsGet parsed "edgeCases"
  let missingTests ← jsGet parsed "missingTests"
  let missingDocumentation ← jsGet parsed "missingDocumentation"
  let positiveFindings ← jsGet parsed "positiveFindings"
  let positives ← jsGet parsed "positives"
  let recommendations ← jsGet parsed "recommendations"
  return { summary := summary
           prIntent := prIntent
           impactAnalysis := impactAnalysis
           issues := issues
           filesReviewed := jsOr filesReviewed (.arr [])
           edgeCases := edgeCases
           missingTests := missingTests
           missingDocumentation := missingDocumentation
           positives := jsOrOpt positiveFindings positives
           recommendations := recommendations }

/-- `CodeReviewAgent.parseResults` (code-reviewer.ts lines 234-283).
`JSON.parse` is the platform's parser, abstracted as the `jsonParse`
parameter (`none` models a thrown `SyntaxError`); the surrounding
`try/catch` and the missing-match fallthrough both produce
`emptyParsedResults`. -/
def parseResults (jsonParse : String → Option Json) (resultText : String) :
    ParsedResults :=
  match extractBraceSpan resultText with
  | none => emptyParsedResults
  | some span =>
    match jsonParse span with
    | none => emptyParsedResults
    | some parsed =>
      match parsedToResults parsed with
      | .ok r => r
      | .error _ => emptyParsedResults

/-- Statistics block (`ReviewStats` in `src/types/index.ts`);
`totalFiles` carries the JS `.length` access on the raw `filesReviewed`
value (`none` models `undefined`). -/
structure ReviewStats where
  totalFiles : Option Nat
  totalIssues : Nat
  issuesBySeverity : SeverityCounts
  issuesByCategory : CategoryCounts
  totalCostUsd : ℚ
  durationMs : ℚ

/-- Execution metadata (`ReviewMetadata` in `src/types/index.ts`). -/
structure ReviewMetadata where
  startTime : String
  endTime : String
  model : String
  sessionId : String
  config : ReviewConfig

/-- Caller-visible result (`ReviewResult` in `src/types/index.ts`). -/
structure ReviewResult where
  status : String
  summary : String
  prIntent : Option Json
  impactAnalysis : Option Json
  issues : List ReviewIssue
  edgeCases : Option Json
  missingTests : Option Json
  missingDocumentation : Option Json
  positives : Option Json
  recommendations : Option Json
  filesReviewed : Json
  filesSkipped : List Json
  stats : ReviewStats
  metadata : ReviewMetadata

/-- JS `a || b` on strings (empty string is falsy). -/
def strOr (a b : String) : String := if a ≠ "" then a else b

/-- The pure result-assembly step of `CodeReviewAgent.review`
(code-reviewer.ts lines 60-88), once the session consumer has delivered the
parsed results and the telemetry. -/
def assembleResult (config : ReviewConfig) (sessionId : Option String)
    (parsed : ParsedResults) (totalCostUsd durationMs : ℚ)
    (startTime endTime : String) : ReviewResult :=
  { status := determineStatus parsed.issues
    summary := buildSummary parsed.issues parsed.filesReviewed parsed.prIntent
    prIntent := parsed.prIntent
    impactAnalysis := parsed.impactAnalysis
    issues := filterIssuesBySeverity config.severityThreshold parsed.issues
    edgeCases := parsed.edgeCases
    missingTests := parsed.missingTests
    missingDocumentation := parsed.missingDocumentation
    positives := parsed.positives
    recommendations := parsed.recommendations
    filesReviewed := parsed.filesReviewed
    filesSkipped := []
    stats :=
      { totalFiles := jsLength parsed.filesReviewed
        totalIssues := parsed.issues.length
        issuesBySeverity := countBySeverity parsed.issues
        issuesByCategory := countByCategory parsed.issues
        totalCostUsd := totalCostUsd
        durationMs := durationMs }
    metadata :=
      { startTime := startTime
        endTime := endTime
        model := strOr config.model "claude-sonnet-4.5-20250929"
        sessionId := strOr (sessionId.getD "") "unknown"
        config := config } }

/-- One diff block of the `buildPrompt` PR-context section (code-reviewer.ts
lines 129-141). `substring(0, 2000)` is modelled as taking 2000 characters. -/
def buildPromptDiffBlock (diff : FileDiff) : String :=
  "\n### " ++ diff.filename ++ " (" ++ diff.status ++ ")\n" ++
  "+" ++ toString diff.additions ++ " -" ++ toString diff.deletions ++ " lines\n" ++
  (match diff.patch with
   | some p =>
     if p ≠ "" then
       "```diff\n" ++ String.mk (p.data.take 2000) ++
       (if p.length > 2000 then
          "\n... (diff truncated, use Read tool to see full file)"
        else "") ++
       "\n```\n"
     else ""
   | none => "")

/-- The changed-files fallback of the `buildPrompt` PR-context section
(code-reviewer.ts lines 146-148). -/
def buildPromptChangedFilesBlock (pr : PRContext) : String :=
  match pr.changedFiles with
  | some fs => "\n**Changed Files**: " ++ String.intercalate ", " fs ++ "\n"
  | none => ""

/-- The PR-context section of `CodeReviewAgent.buildPrompt`
(code-reviewer.ts lines 106-157): the text appended when
`this.config.prContext` is set. -/
def buildPromptPrContextSection (pr : PRContext) : String :=
  "\n\n## Pull Request Context\n" ++
  (if strTruthy pr.title then "**Title**: " ++ pr.title.getD "" ++ "\n" else "") ++
  (if strTruthy pr.description then
     "**Description**: " ++ pr.description.getD "" ++ "\n"
   else "") ++
  (match pr.number with
   | some n => if jsTruthy n then "**PR #**: " ++ jsTemplateStr n ++ "\n" else ""
   | none => "") ++
  (if strTruthy pr.author then "**Author**: " ++ pr.author.getD "" ++ "\n" else "") ++
  (if strTruthy pr.branch && strTruthy pr.baseBranch then
     "**Branch**: " ++ pr.branch.getD "" ++ " → " ++ pr.baseBranch.getD "" ++ "\n"
   else "") ++
  (match pr.fileDiffs with
   | some diffs =>
     if diffs.length > 0 then
       "\n**Changes Made** (" ++ toString diffs.length ++ " files):\n" ++
       String.join ((diffs.take 15).map buildPromptDiffBlock) ++
       (if diffs.length > 15 then
          "\n... and " ++ toString (diffs.length - 15) ++
          " more files (use Glob/Read to explore)\n"
        else "")
     else buildPromptChangedFilesBlock pr
   | none => buildPromptChangedFilesBlock pr) ++
  "\n**Your Task**: Review the diffs above. Understand what this PR is trying to achieve, verify it works correctly, and check for:\n" ++
  "- Security vulnerabilities in the changed lines\n" ++
  "- Bugs or logic errors in the modifications\n" ++
  "- Impact on files that import/use the changed code\n" ++
  "- Missing tests for the new/changed functionality\n" ++
  "- Edge cases not handled by the changes\n\n"

/-- The literal JSON output schema embedded in `buildPrompt`
(code-reviewer.ts lines 189-215); braces are written by code-point escape. -/
def promptJsonSchema : String :=
  "\x7b\n" ++
  "  \"prIntent\": \"What this PR aims to achieve (if applicable)\",\n" ++
  "  \"summary\": \"Overall assessment\",\n" ++
  "  \"impactAnalysis\": \x7b\n" ++
  "    \"breakingChanges\": [],\n" ++
  "    \"affectedFiles\": [],\n" ++
  "    \"integrationImpact\": \"description\",\n" ++
  "    \"performanceImpact\": \"description\",\n" ++
  "    \"securityImpact\": \"description\"\n" ++
  "  \x7d,\n" ++
  "  \"issues\": [\n" ++
  "    \x7b\n" ++
  "      \"severity\": \"HIGH|MEDIUM|LOW|INFO\",\n" ++
  "      \"category\": \"Security|Performance|Bug|Code Quality\",\n" ++
  "      \"file\": \"path/to/file.ts\",\n" ++
  "      \"line\": 42,\n" ++
  "      \"description\": \"Issue description\",\n" ++
  "      \"recommendation\": \"How to fix\"\n" ++
  "    \x7d\n" ++
  "  ],\n" ++
  "  \"edgeCases\": [\x7b\"scenario\": \"edge case\", \"handled\": false, \"recommendation\": \"fix\"\x7d],\n" ++
  "  \"missingTests\": [\"test scenarios needed\"],\n" ++
  "  \"missingDocumentation\": [\"docs to add\"],\n" ++
  "  \"positives\": [\"good practices found\"],\n" ++
  "  \"recommendations\": [\"prioritized improvements\"],\n" ++
  "  \"filesReviewed\": [\"files\", \"reviewed\"]\n" ++
  "\x7d"

/-- `CodeReviewAgent.buildPrompt` (code-reviewer.ts lines 102-221).
`this.config.rules || []` is the identity on the built config, whose rule
list is always an array. -/
def buildPrompt (config : ReviewConfig) (target : String) : String :=
  let enabledRules := config.rules.filter (fun r => r.enabled)
  "You are an expert code reviewer. " ++
  (match config.prContext with
   | some pr => buildPromptPrContextSection pr
   | none => "") ++
  "\n## Review Task\n\nPerform a comprehensive code review of: " ++ target ++
  "\n\nFocus on:\n" ++
  "1. Security vulnerabilities (SQL injection, XSS, SSRF, authorization bypasses, hardcoded secrets)\n" ++
  "2. Potential bugs (null references, type errors, logic errors, race conditions)\n" ++
  "3. Performance issues (inefficient loops, memory leaks, N+1 queries)\n" ++
  "4. Missing error handling and edge cases\n" ++
  "5. Code quality and best practices\n\n" ++
  (if enabledRules.length > 0 then
     "\nApply these rules:\n" ++
     String.intercalate "\n" (enabledRules.map (fun r =>
       "- [" ++ jsToUpper (severityToJs r.severity) ++ "] " ++ r.name ++ ": " ++
       r.description))
   else "") ++
  "\n\n" ++
  (match config.prContext with
   | some pr =>
     match pr.changedFiles with
     | some fs =>
       "\n**Priority**: Focus on changed files: " ++ String.intercalate ", " fs ++
       ", but also analyze their impact on the project."
     | none => ""
   | none => "") ++
  "\n\nUse Glob and Read tools to explore the codebase. Review up to " ++
  toString (if config.maxFiles ≠ 0 then config.maxFiles else 30) ++ " files.\n\n" ++
  "Provide findings in JSON format:\n```json\n" ++ promptJsonSchema ++
  "\n```\n\nBegin the review now."

/-- The `prContextSection` template of `loadReviewPrompt` (part_003 lines
31-49), built when a PR context is given. The branch line reproduces the
source file's literal characters (a mojibake arrow, U+00E2 U+2020 U+2019)
and its `prContext.baseBranch || 'main'` fallback. -/
def prContextSection (prContext : PRContext) : String :=
  "\n## Pull Request Context\n\n" ++
  (if strTruthy prContext.title then
     "**PR Title**: " ++ prContext.title.getD "" ++ "\n"
   else "") ++ "\n" ++
  (match prContext.number with
   | some n => if jsTruthy n then "**PR Number**: #" ++ jsTemplateStr n ++ "\n" else ""
   | none => "") ++ "\n" ++
  (if strTruthy prContext.description then
     "**PR Description**:\n" ++ prContext.description.getD "" ++ "\n"
   else "") ++ "\n" ++
  (if strTruthy prContext.author then
     "**Author**: " ++ prContext.author.getD "" ++ "\n"
   else "") ++ "\n" ++
  (if strTruthy prContext.branch then
     "**Branch**: " ++ prContext.branch.getD "" ++ " â†’ " ++
     strOr (prContext.baseBranch.getD "") "main" ++ "\n"
   else "") ++ "\n" ++
  (match prContext.changedFiles with
   | some fs =>
     if fs.length > 0 then
       "**Changed Files**:\n" ++
       String.intercalate "\n" (fs.map (fun f => "- " ++ f)) ++ "\n"
     else ""
   | none => "") ++
  "\n\n**Important**: Use this context to understand the developer\x27s intent and ensure your review addresses what they\x27re trying to accomplish. Verify that the changes achieve the stated goals and handle all edge cases related to the PR\x27s purpose.\n"

/-- JS `Map.prototype.get` on the insertion-ordered association list. -/
def mapLookup (m : List (String × ReviewRule)) (k : String) : Option ReviewRule :=
  (m.find? (fun p => p.1 == k)).map Prod.snd

/-- Well-formedness of the rule maps this pipeline builds: every entry is
keyed by its rule's id, and keys are pairwise distinct. -/
def MapWF (m : List (String × ReviewRule)) : Prop :=
  (∀ p ∈ m, p.1 = p.2.id) ∧ (m.map Prod.fst).Nodup

/-- The user rule of the spec's Scenario D: shares the id of a default rule
but arrives disabled. -/
def scenarioDRule : ReviewRule :=
  { id := "security-xss", name := "Custom XSS"
    description := "Disabled by the user"
    severity := .critical, category := .security, enabled := false }

/-- Concrete agent output object for the `filePath` default: a `file` field
that is the empty string and no `filePath` field. -/
def c10issue : Json :=
  .obj [("severity", Json.str "HIGH"), ("file", Json.str "")]

/-- The issue `normIssue` produces for `c10issue`. -/
def c10result : ReviewIssue :=
  { ruleId := .str "general", severity := .critical, category := .bestPractices
    filePath := .str "unknown", line := none, message := none
    suggestion := none, impact := none }

/-- Concrete PR context with a branch but no base branch, exercising the
`baseBranch || 'main'` fallback of `prContextSection`. -/
def c9pr : PRContext := { branch := some "feature-x" }

/-! ## Theorems -/

/-- C1: `mapSeverity` is total (always one of the four canonical levels) and
maps exactly: any casing of HIGH/CRITICAL to `critical`, MEDIUM/ERROR to
`error`, LOW/WARNING to `warning`, and everything else — including the
absent-field default "INFO" — to `info`; it is case-insensitive
(determined by the uppercased input). -/
theorem mapSeverity_total_canonical_caseInsensitive (s t : String) :
    (mapSeverity s = .critical ∨ mapSeverity s = .error ∨
      mapSeverity s = .warning ∨ mapSeverity s = .info) ∧
    (mapSeverity s = .critical ↔ (jsToUpper s = "HIGH" ∨ jsToUpper s = "CRITICAL")) ∧
    (mapSeverity s = .error ↔ (jsToUpper s = "MEDIUM" ∨ jsToUpper s = "ERROR")) ∧
    (mapSeverity s = .warning ↔ (jsToUpper s = "LOW" ∨ jsToUpper s = "WARNING")) ∧
    (mapSeverity s = .info ↔
      ¬(jsToUpper s = "HIGH" ∨ jsToUpper s = "CRITICAL" ∨ jsToUpper s = "MEDIUM" ∨
        jsToUpper s = "ERROR" ∨ jsToUpper s = "LOW" ∨ jsToUpper s = "WARNING")) ∧
    (jsToUpper s = jsToUpper t → mapSeverity s = mapSeverity t) ∧
    mapSeverity "INFO" = .info := by
  have key : ∀ u : String, mapSeverity u =
      (if jsToUpper u = "HIGH" ∨ jsToUpper u = "CRITICAL" then .critical
       else if jsToUpper u = "MEDIUM" ∨ jsToUpper u = "ERROR" then .error
       else if jsToUpper u = "LOW" ∨ jsToUpper u = "WARNING" then .warning
       else .info) := fun u => rfl
  refine ⟨?_, ?_, ?_, ?_, ?_, ?_, by decide⟩
  · rw [key]; split_ifs <;> simp
  · rw [key]; split_ifs with h1 h2 h3 <;>
      first
        | simpa using h1
        | exact iff_of_false (by simp) h1
  · rw [key]; split_ifs with h1 h2 h3 <;>
      first
        | simpa using h2
        | exact iff_of_false (by simp) h2
        | exact iff_of_false (by simp) (by rcases h1 with h | h <;> rw [h] <;> decide)
  · rw [key]; split_ifs with h1 h2 h3 <;>
      first
        | simpa using h3
        | exact iff_of_false (by simp) h3
        | exact iff_of_false (by simp) (by rcases h1 with h | h <;> rw [h] <;> decide)
        | exact iff_of_false (by simp) (by rcases h2 with h | h <;> rw [h] <;> decide)
  · rw [key]; split_ifs with h1 h2 h3 <;>
      first
        | exact iff_of_true rfl (by tauto)
        | exact iff_of_false (by simp) (not_not_intro (by tauto))
  · intro h; rw [key, key, h]

/-- Witness for C1: a mixed-case input is mapped like its uppercasing. -/
theorem mapSeverity_total_canonical_caseInsensitive_witness :
    jsToUpper "HiGh" = jsToUpper "high" ∧ mapSeverity "HiGh" = mapSeverity "high" :=
  ⟨by decide,
    (mapSeverity_total_canonical_caseInsensitive "HiGh" "high").2.2.2.2.2.1 (by decide)⟩

/-- C2: `determineStatus` returns "failure" when some issue is critical,
otherwise "partial" when some issue is an error, otherwise "success"; a
list with only warning/info issues (or no issues) yields "success". -/
theorem determineStatus_precedence (issues : List ReviewIssue) :
    ((∃ i ∈ issues, i.severity = .critical) → determineStatus issues = "failure") ∧
    ((¬∃ i ∈ issues, i.severity = .critical) → (∃ i ∈ issues, i.severity = .error) →
      determineStatus issues = "partial") ∧
    ((∀ i ∈ issues, i.severity = .warning ∨ i.severity = .info) →
      determineStatus issues = "success") := by
  have key : determineStatus issues =
      if issues.any (fun i => decide (i.severity = .critical)) then "failure"
      else if issues.any (fun i => decide (i.severity = .error)) then "partial"
      else "success" := rfl
  have hc : (issues.any (fun i => decide (i.severity = .critical)) = true) ↔
      ∃ i ∈ issues, i.severity = .critical := by
    simp [List.any_eq_true]
  have he : (issues.any (fun i => decide (i.severity = .error)) = true) ↔
      ∃ i ∈ issues, i.severity = .error := by
    simp [List.any_eq_true]
  refine ⟨fun h => ?_, fun hnc hee => ?_, fun hwi => ?_⟩
  · rw [key, if_pos (hc.mpr h)]
  · have h1 : issues.any (fun i => decide (i.severity = .critical)) = false := by
      rw [← Bool.not_eq_true, hc]; exact hnc
    rw [key, h1]
    simp only [Bool.false_eq_true, if_false]
    rw [if_pos (he.mpr hee)]
  · have h1 : issues.any (fun i => decide (i.severity = .critical)) = false := by
      rw [← Bool.not_eq_true, hc]
      rintro ⟨i, hi, hsev⟩
      rcases hwi i hi with h | h <;> simp [h] at hsev
    have h2 : issues.any (fun i => decide (i.severity = .error)) = false := by
      rw [← Bool.not_eq_true, he]
      rintro ⟨i, hi, hsev⟩
      rcases hwi i hi with h | h <;> simp [h] at hsev
    rw [key, h1, h2]
    simp

/-- Witness for C2: one critical issue forces "failure"; a warning-only list
and the empty list give "success". -/
theorem determineStatus_precedence_witness :
    determineStatus [⟨Json.str "general", .critical, .security, Json.str "a.ts",
      none, none, none, none⟩] = "failure" ∧
    determineStatus [⟨Json.str "general", .warning, .security, Json.str "a.ts",
      none, none, none, none⟩] = "success" ∧
    determineStatus [] = "success" :=
  ⟨(determineStatus_precedence _).1
     ⟨⟨Json.str "general", .critical, .security, Json.str "a.ts",
       none, none, none, none⟩, by simp, rfl⟩,
   (determineStatus_precedence _).2.2 (by simp),
   (determineStatus_precedence _).2.2 (by simp)⟩

/-- C3: with no configured threshold the filter is the identity; with a
threshold, an issue is retained iff its rank in info < warning < error <
critical is at least the threshold's rank; raising the threshold never
increases the filtered list's length. -/
theorem filterIssuesBySeverity_threshold (t : IssueSeverity) (issues : List ReviewIssue) :
    filterIssuesBySeverity none issues = issues ∧
    filterIssuesBySeverity (some t) issues =
      issues.filter (fun i => decide (severityRank t ≤ severityRank i.severity)) ∧
    (∀ i, i ∈ filterIssuesBySeverity (some t) issues ↔
      i ∈ issues ∧ severityRank t ≤ severityRank i.severity) ∧
    (∀ t2 : IssueSeverity, severityRank t ≤ severityRank t2 →
      (filterIssuesBySeverity (some t2) issues).length ≤
        (filterIssuesBySeverity (some t) issues).length) ∧
    (filterIssuesBySeverity (some t) issues).length ≤
      (filterIssuesBySeverity none issues).length := by
  have hidx : ∀ x : IssueSeverity, jsIndexOf x severityLevels = (severityRank x : Int) := by
    intro x; cases x <;> rfl
  have hfil : ∀ u : IssueSeverity, filterIssuesBySeverity (some u) issues =
      issues.filter (fun i => decide (severityRank u ≤ severityRank i.severity)) := by
    intro u
    show issues.filter _ = issues.filter _
    refine List.filter_congr fun i _ => ?_
    simp only [hidx]
    exact decide_eq_decide.mpr Int.ofNat_le
  refine ⟨rfl, hfil t, fun i => ?_, fun t2 h12 => ?_, ?_⟩
  · rw [hfil t, List.mem_filter, decide_eq_true_eq]
  · rw [hfil t, hfil t2]
    refine List.Sublist.length_le (List.monotone_filter_right _ fun i hi => ?_)
    rw [decide_eq_true_eq] at hi ⊢
    exact le_trans h12 hi
  · rw [hfil t]
    exact List.length_filter_le _ _

/-- Witness for C3: on a one-warning list, raising the threshold from
warning to critical does not increase the filtered length. -/
theorem filterIssuesBySeverity_threshold_witness :
    severityRank .warning ≤ severityRank .critical ∧
    (filterIssuesBySeverity (some .critical)
        [⟨Json.str "general", .warning, .security, Json.str "a.ts",
          none, none, none, none⟩]).length ≤
      (filterIssuesBySeverity (some .warning)
        [⟨Json.str "general", .warning, .security, Json.str "a.ts",
          none, none, none, none⟩]).length :=
  ⟨by decide,
   (filterIssuesBySeverity_threshold .warning _).2.2.2.1 .critical (by decide)⟩

/-- C4: exhibit of the divergence. The claim (and the code's own error
message "maxFiles must be greater than 0") requires every non-positive
bound to be rejected, but the truthiness guard `config.maxFiles &&
config.maxFiles <= 0` skips the check when the value is 0, so a zero
`maxFiles` or `maxBudgetUsd` passes validation; strictly negative values
are rejected as intended. -/
theorem validateConfig_accepts_zero_bounds :
    validateConfig (buildConfig {} { maxFiles := some 0 }) (some "key") = .ok () ∧
    validateConfig (buildConfig {} { maxBudgetUsd := some 0 }) (some "key") = .ok () ∧
    validateConfig (buildConfig {} { maxFiles := some (-1) }) (some "key") =
      .error "maxFiles must be greater than 0" ∧
    validateConfig (buildConfig {} { maxBudgetUsd := some (-1) }) (some "key") =
      .error "maxBudgetUsd must be greater than 0" := by
  refine ⟨?_, ?_, ?_, ?_⟩ <;> rfl

/-- C5: exclude-pattern merging is additive — the resolved list always
starts with the full baseline, and every user pattern is appended after
it; the baseline is never replaced. -/
theorem buildConfig_excludePatterns_additive (env : EnvDefaults)
    (user : PartialReviewConfig) :
    (∀ p ∈ defaultExcludePatterns, p ∈ (buildConfig env user).excludePatterns) ∧
    (∀ ps, user.excludePatterns = some ps →
      (buildConfig env user).excludePatterns = defaultExcludePatterns ++ ps) ∧
    (user.excludePatterns = none →
      (buildConfig env user).excludePatterns = defaultExcludePatterns) ∧
    (∀ ps p, user.excludePatterns = some ps → p ∈ ps →
      p ∈ (buildConfig env user).excludePatterns) := by
  unfold buildConfig
  refine ⟨fun p hp => ?_, fun ps hps => ?_, fun hnone => ?_, fun ps p hps hp => ?_⟩
  · cases h : user.excludePatterns <;> simp [h, hp]
  · simp [hps]
  · simp [hnone]
  · simp [hps, hp]

/-- Witness for C5 (the spec's Scenario C): adding the user pattern
"*.generated.ts" keeps the node_modules baseline entry and appends the new
pattern. -/
theorem buildConfig_excludePatterns_additive_witness :
    "node_modules/**" ∈
      (buildConfig {} { excludePatterns := some ["*.generated.ts"] }).excludePatterns ∧
    "*.generated.ts" ∈
      (buildConfig {} { excludePatterns := some ["*.generated.ts"] }).excludePatterns ∧
    (buildConfig {} { excludePatterns := some ["*.generated.ts"] }).excludePatterns =
      defaultExcludePatterns ++ ["*.generated.ts"] :=
  ⟨(buildConfig_excludePatterns_additive {} _).1 _ (by decide),
   (buildConfig_excludePatterns_additive {} _).2.2.2 _ _ rfl (by decide),
   (buildConfig_excludePatterns_additive {} _).2.1 _ rfl⟩

/-- Setting a key in the rule map makes it that key's binding. -/
theorem mapLookup_mapSet_self (m : List (String × ReviewRule)) (k : String)
    (v : ReviewRule) : mapLookup (mapSet m k v) k = some v := by
  unfold mapLookup mapSet
  by_cases h : m.any (fun p => p.1 == k) = true
  · rw [if_pos h]
    induction m with
    | nil => simp at h
    | cons p rest ih =>
      by_cases hp : (p.1 == k) = true
      · have hfp : (if (p.1 == k) = true then (k, v) else p) = (k, v) := if_pos hp
        rw [List.map_cons, hfp,
          @List.find?_cons_of_pos _ (fun q => q.1 == k) (k, v) _ (by simp)]
        rfl
      · have hp2 : (p.1 == k) = false := Bool.eq_false_iff.mpr hp
        rw [List.any_cons, hp2, Bool.false_or] at h
        have hfp : (if (p.1 == k) = true then (k, v) else p) = p := if_neg hp
        rw [List.map_cons, hfp,
          @List.find?_cons_of_neg _ (fun q => q.1 == k) p _ hp]
        exact ih h
  · rw [if_neg h]
    have hnone : m.find? (fun p => p.1 == k) = none := by
      rw [List.find?_eq_none]
      exact fun p hp hk => h (List.any_eq_true.mpr ⟨p, hp, hk⟩)
    rw [List.find?_append, hnone]
    simp

/-- Setting one key leaves every other key's binding unchanged. -/
theorem mapLookup_mapSet_other (m : List (String × ReviewRule)) (k k' : String)
    (v : ReviewRule) (hk : k' ≠ k) :
    mapLookup (mapSet m k v) k' = mapLookup m k' := by
  unfold mapLookup mapSet
  by_cases h : m.any (fun p => p.1 == k) = true
  · rw [if_pos h]
    clear h
    induction m with
    | nil => rfl
    | cons p rest ih =>
      by_cases hp : (p.1 == k) = true
      · have hpk : p.1 = k := beq_iff_eq.mp hp
        have hfp : (if (p.1 == k) = true then (k, v) else p) = (k, v) := if_pos hp
        have h2 : ¬(((k, v) : String × ReviewRule).1 == k') = true := by
          simp only [beq_iff_eq]
          exact fun hh => hk hh.symm
        have h3 : ¬(p.1 == k') = true := by
          simp only [beq_iff_eq, hpk]
          exact fun hh => hk hh.symm
        rw [List.map_cons, hfp,
          @List.find?_cons_of_neg _ (fun q => q.1 == k') (k, v) _ h2,
          @List.find?_cons_of_neg _ (fun q => q.1 == k') p _ h3]
        exact ih
      · have hfp : (if (p.1 == k) = true then (k, v) else p) = p := if_neg hp
        rw [List.map_cons, hfp]
        by_cases hq : (p.1 == k') = true
        · rw [@List.find?_cons_of_pos _ (fun q => q.1 == k') p _ hq,
            @List.find?_cons_of_pos _ (fun q => q.1 == k') p _ hq]
        · rw [@List.find?_cons_of_neg _ (fun q => q.1 == k') p _ hq,
            @List.find?_cons_of_neg _ (fun q => q.1 == k') p _ hq]
          exact ih
  · rw [if_neg h, List.find?_append]
    have hlast : ([(k, v)] : List (String × ReviewRule)).find?
        (fun p => p.1 == k') = none := by
      rw [List.find?_eq_none]
      intro p hp
      simp only [List.mem_singleton] at hp
      subst hp
      simp only [beq_iff_eq]
      exact fun hh => hk hh.symm
    rw [hlast]
    cases hf : m.find? (fun p => p.1 == k') <;> simp

/-- `mapSet` with a rule keyed by its own id preserves well-formedness. -/
theorem MapWF_mapSet (m : List (String × ReviewRule)) (v : ReviewRule)
    (h : MapWF m) : MapWF (mapSet m v.id v) := by
  obtain ⟨hkeys, hnodup⟩ := h
  unfold mapSet
  by_cases hmem : m.any (fun p => p.1 == v.id) = true
  · rw [if_pos hmem]
    constructor
    · intro p hp
      obtain ⟨q, hq, rfl⟩ := List.mem_map.mp hp
      by_cases hqk : (q.1 == v.id) = true
      · rw [if_pos hqk]
      · rw [if_neg hqk]
        exact hkeys q hq
    · have hsame : (m.map (fun p => if p.1 == v.id then (v.id, v) else p)).map
          Prod.fst = m.map Prod.fst := by
        rw [List.map_map]
        refine List.map_congr_left fun p _ => ?_
        by_cases hqk : (p.1 == v.id) = true
        · simp only [Function.comp_apply, if_pos hqk]
          exact (beq_iff_eq.mp hqk).symm
        · simp only [Function.comp_apply, if_neg hqk]
      rw [hsame]
      exact hnodup
  · rw [if_neg hmem]
    constructor
    · intro p hp
      rcases List.mem_append.mp hp with h | h
      · exact hkeys p h
      · simp only [List.mem_singleton] at h
        rw [h]
    · rw [List.map_append]
      refine List.Nodup.append hnodup (by simp) ?_
      intro a ha hb
      simp only [List.map_cons, List.map_nil, List.mem_singleton] at hb
      subst hb
      obtain ⟨p, hp, hfst⟩ := List.mem_map.mp ha
      exact hmem (List.any_eq_true.mpr ⟨p, hp, beq_iff_eq.mpr hfst⟩)

/-- In a well-formed rule map, a rule is among the values exactly when it is
the binding of its own id. -/
theorem mem_values_iff_lookup (m : List (String × ReviewRule)) (h : MapWF m)
    (r : ReviewRule) : r ∈ m.map Prod.snd ↔ mapLookup m r.id = some r := by
  revert h
  induction m with
  | nil => intro _; simp [mapLookup]
  | cons q rest ih =>
    intro h
    obtain ⟨hkeys, hnodup⟩ := h
    rw [List.map_cons, List.nodup_cons] at hnodup
    have hwf : MapWF rest :=
      ⟨fun p hp => hkeys p (List.mem_cons_of_mem _ hp), hnodup.2⟩
    by_cases hq : (q.1 == r.id) = true
    · have hqk : q.1 = r.id := beq_iff_eq.mp hq
      unfold mapLookup
      rw [@List.find?_cons_of_pos _ (fun p => p.1 == r.id) q _ hq,
        List.map_cons, List.mem_cons]
      constructor
      · rintro (h1 | h1)
        · rw [h1]
          rfl
        · exfalso
          obtain ⟨p, hp, hps⟩ := List.mem_map.mp h1
          refine hnodup.1 ?_
          have hpr : p.1 = r.id := by
            rw [hkeys p (List.mem_cons_of_mem _ hp), hps]
          rw [hqk, ← hpr]
          exact List.mem_map.mpr ⟨p, hp, rfl⟩
      · intro h1
        exact Or.inl (Option.some_inj.mp h1).symm
    · have hqk : q.1 ≠ r.id := fun hh => hq (beq_iff_eq.mpr hh)
      unfold mapLookup
      rw [@List.find?_cons_of_neg _ (fun p => p.1 == r.id) q _ hq,
        List.map_cons, List.mem_cons]
      rw [show (Option.map Prod.snd (rest.find? fun p => p.1 == r.id) = some r) ↔
          (mapLookup rest r.id = some r) from Iff.rfl, ← ih hwf]
      constructor
      · rintro (h1 | h1)
        · exact absurd ((hkeys q (List.mem_cons_self _ _)).trans
            (congrArg ReviewRule.id h1.symm)) hqk
        · exact h1
      · exact fun h1 => Or.inr h1

/-- Folding `mapSet` over rules none of which carry the key leaves the
key's binding unchanged. -/
theorem foldl_mapSet_lookup_absent (rs : List ReviewRule) (k : String)
    (h : ∀ v ∈ rs, v.id ≠ k) :
    ∀ m, mapLookup (rs.foldl (fun acc rule => mapSet acc rule.id rule) m) k =
      mapLookup m k := by
  induction rs with
  | nil => intro m; rfl
  | cons r rest ih =>
    intro m
    rw [List.foldl_cons, ih (fun v hv => h v (List.mem_cons_of_mem _ hv)),
      mapLookup_mapSet_other _ _ _ _ (fun hk => h r (List.mem_cons_self _ _) hk.symm)]

/-- Folding `mapSet` over rules among which `u` is the unique rule with its
id binds `u.id` to `u`. -/
theorem foldl_mapSet_lookup_last (rs : List ReviewRule) (u : ReviewRule)
    (hmem : u ∈ rs) (huni : ∀ v ∈ rs, v.id = u.id → v = u) :
    ∀ m, mapLookup (rs.foldl (fun acc rule => mapSet acc rule.id rule) m) u.id =
      some u := by
  induction rs with
  | nil => cases hmem
  | cons r rest ih =>
    intro m
    rw [List.foldl_cons]
    by_cases hur : u ∈ rest
    · exact ih hur (fun v hv hid => huni v (List.mem_cons_of_mem _ hv) hid) _
    · have hru : r = u := by
        rcases List.mem_cons.mp hmem with h | h
        · exact h.symm
        · exact absurd h hur
      subst hru
      have habs : ∀ v ∈ rest, v.id ≠ r.id := by
        intro v hv hid
        exact hur ((huni v (List.mem_cons_of_mem _ hv) hid) ▸ hv)
      rw [foldl_mapSet_lookup_absent rest _ habs, mapLookup_mapSet_self]

/-- Folding `mapSet` over rules preserves map well-formedness. -/
theorem MapWF_foldl (rs : List ReviewRule) :
    ∀ m, MapWF m → MapWF (rs.foldl (fun acc rule => mapSet acc rule.id rule) m) := by
  induction rs with
  | nil => intro m hm; exact hm
  | cons r rest ih =>
    intro m hm
    rw [List.foldl_cons]
    exact ih _ (MapWF_mapSet _ _ hm)

/-- Folding `mapSet` over id-keyed pairs preserves map well-formedness. -/
theorem MapWF_foldl_pairs (l : List (String × ReviewRule)) :
    ∀ m, (∀ p ∈ l, p.1 = p.2.id) → MapWF m →
      MapWF (l.foldl (fun m p => mapSet m p.1 p.2) m) := by
  induction l with
  | nil => intro m _ hm; exact hm
  | cons p rest ih =>
    intro m hl hm
    rw [List.foldl_cons]
    refine ih _ (fun q hq => hl q (List.mem_cons_of_mem _ hq)) ?_
    rw [hl p (List.mem_cons_self _ _)]
    exact MapWF_mapSet _ _ hm

/-- The seeded-then-overridden rule map of `mergeRules` is well-formed. -/
theorem mergeRules_map_WF (defaultRules userRules : List ReviewRule) :
    MapWF (userRules.foldl (fun m rule => mapSet m rule.id rule)
      (mapFromList (defaultRules.map fun rule => (rule.id, rule)))) := by
  refine MapWF_foldl _ _ ?_
  unfold mapFromList
  refine MapWF_foldl_pairs _ _ ?_ ⟨by simp, by simp⟩
  intro p hp
  obtain ⟨q, _, rfl⟩ := List.mem_map.mp hp
  rfl

/-- Membership in `mergeRules`: a rule survives iff it is the final binding
of its id and is enabled. -/
theorem mergeRules_mem_iff (defaultRules userRules : List ReviewRule)
    (r : ReviewRule) :
    r ∈ mergeRules defaultRules userRules ↔
      mapLookup (userRules.foldl (fun m rule => mapSet m rule.id rule)
        (mapFromList (defaultRules.map fun rule => (rule.id, rule)))) r.id =
        some r ∧ r.enabled = true := by
  unfold mergeRules
  rw [List.mem_filter, mem_values_iff_lookup _ (mergeRules_map_WF _ _)]

/-- C6: the resolved rule set comes from a map seeded with the default
rules and overridden wholesale by id with the user rules, filtered to
enabled rules: every surviving rule is enabled; a user rule that is the
unique carrier of its id survives iff enabled, any survivor with that id is
that user rule, and a disabled user rule removes its id entirely. -/
theorem mergeRules_override_by_id (defaultRules userRules : List ReviewRule)
    (u : ReviewRule) (hmem : u ∈ userRules)
    (huni : ∀ v ∈ userRules, v.id = u.id → v = u) :
    (∀ r ∈ mergeRules defaultRules userRules, r.enabled = true) ∧
    (u.enabled = true → u ∈ mergeRules defaultRules userRules) ∧
    (∀ r ∈ mergeRules defaultRules userRules, r.id = u.id → r = u) ∧
    (u.enabled = false → ∀ r ∈ mergeRules defaultRules userRules, r.id ≠ u.id) := by
  have hlast := foldl_mapSet_lookup_last userRules u hmem huni
  have hsame : ∀ r, r ∈ mergeRules defaultRules userRules → r.id = u.id → r = u := by
    intro r hr hid
    have h1 := ((mergeRules_mem_iff defaultRules userRules r).mp hr).1
    rw [hid, hlast] at h1
    exact (Option.some_inj.mp h1).symm
  refine ⟨fun r hr => ((mergeRules_mem_iff _ _ r).mp hr).2,
    fun hen => (mergeRules_mem_iff _ _ u).mpr ⟨hlast _, hen⟩, hsame, ?_⟩
  intro hdis r hr hid
  have hrv := hsame r hr hid
  have hen := ((mergeRules_mem_iff _ _ r).mp hr).2
  rw [hrv] at hen
  exact absurd (hen.symm.trans hdis) (by decide)

/-- Witness for C6 (the spec's Scenario D): the user's disabled
"security-xss" rule removes that id from the resolved set. -/
theorem mergeRules_override_by_id_witness :
    scenarioDRule ∈ [scenarioDRule] ∧ scenarioDRule.enabled = false ∧
    scenarioDRule ∉ mergeRules DEFAULT_RULES [scenarioDRule] :=
  ⟨by decide, by decide,
   fun hmem =>
     (mergeRules_override_by_id DEFAULT_RULES [scenarioDRule] scenarioDRule
       (by decide) (by decide)).2.2.2 rfl scenarioDRule hmem rfl⟩

/-- Reduction of an `Except` bind on a success value. -/
theorem except_bind_ok {ε α β : Type} (a : α) (f : α → Except ε β) :
    (Except.ok a >>= f) = f a := rfl

/-- Reduction of an `Except` bind on an error value. -/
theorem except_bind_error {ε α β : Type} (e : ε) (f : α → Except ε β) :
    ((Except.error e : Except ε α) >>= f) = Except.error e := rfl

/-- Reduction of `pure` in the `Except` monad. -/
theorem except_pure_eq_ok {ε α : Type} (a : α) :
    (pure a : Except ε α) = Except.ok a := rfl

/-- C7: in the result assembled by `review`, the summary statistics
(`totalIssues`, the per-severity and per-category counts), the status and
the summary are computed from the full unfiltered issue list — they do not
depend on the configured threshold — while the `issues` field is the
threshold-filtered list. -/
theorem review_stats_unfiltered_issues_filtered (config : ReviewConfig)
    (t : Option IssueSeverity) (sessionId : Option String)
    (parsed : ParsedResults) (totalCostUsd durationMs : ℚ)
    (startTime endTime : String) :
    (assembleResult { config with severityThreshold := t } sessionId parsed
        totalCostUsd durationMs startTime endTime).stats.totalIssues =
      parsed.issues.length ∧
    (assembleResult { config with severityThreshold := t } sessionId parsed
        totalCostUsd durationMs startTime endTime).issues =
      filterIssuesBySeverity t parsed.issues ∧
    (assembleResult { config with severityThreshold := t } sessionId parsed
        totalCostUsd durationMs startTime endTime).stats =
      (assembleResult config sessionId parsed
        totalCostUsd durationMs startTime endTime).stats ∧
    (assembleResult { config with severityThreshold := t } sessionId parsed
        totalCostUsd durationMs startTime endTime).status =
      (assembleResult config sessionId parsed
        totalCostUsd durationMs startTime endTime).status ∧
    (assembleResult { config with severityThreshold := t } sessionId parsed
        totalCostUsd durationMs startTime endTime).summary =
      (assembleResult config sessionId parsed
        totalCostUsd durationMs startTime endTime).summary :=
  ⟨rfl, rfl, rfl, rfl, rfl⟩

/-- C8: result normalization never raises — whenever the brace span is
absent, the span fails to parse, or interpreting the parsed value throws,
`parseResults` returns the empty issue list and empty file list, and the
empty issue list yields status "success". -/
theorem parseResults_failure_empty (jsonParse : String → Option Json)
    (resultText : String) :
    (extractBraceSpan resultText = none →
      parseResults jsonParse resultText = emptyParsedResults) ∧
    (∀ span, extractBraceSpan resultText = some span → jsonParse span = none →
      parseResults jsonParse resultText = emptyParsedResults) ∧
    (∀ span parsed e, extractBraceSpan resultText = some span →
      jsonParse span = some parsed → parsedToResults parsed = .error e →
      parseResults jsonParse resultText = emptyParsedResults) ∧
    emptyParsedResults.issues = [] ∧
    emptyParsedResults.filesReviewed = .arr [] ∧
    determineStatus emptyParsedResults.issues = "success" := by
  refine ⟨fun h => ?_, fun span h1 h2 => ?_, fun span parsed e h1 h2 h3 => ?_,
    rfl, rfl, rfl⟩
  · simp only [parseResults, h]
  · simp only [parseResults, h1, h2]
  · simp only [parseResults, h1, h2, h3]

/-- Witness for C8 (the spec's Scenario B): terminal text with no braces at
all yields the empty result and status "success". -/
theorem parseResults_failure_empty_witness :
    extractBraceSpan "No JSON produced by the agent." = none ∧
    parseResults (fun _ => none) "No JSON produced by the agent." =
      emptyParsedResults :=
  ⟨by decide,
   (parseResults_failure_empty (fun _ => none)
     "No JSON produced by the agent.").1 (by decide)⟩

/-- Truthy-or-default: the fallback chain ending in a non-empty string
default is always truthy. -/
theorem jsOr_default_truthy (a : Option Json) (s : String) (hs : s ≠ "") :
    jsTruthy (jsOr a (.str s)) = true := by
  cases a with
  | none => simp [jsOr, jsTruthy, hs]
  | some v =>
    have key : jsOr (some v) (.str s) = if jsTruthy v = true then v else .str s := rfl
    rw [key]
    cases hv : jsTruthy v
    · simp [hv, jsTruthy, hs]
    · simp [hv]

/-- A falsy (or absent) first operand makes `||` return the second. -/
theorem jsOr_falsy (a : Option Json) (b : Json)
    (ha : (a.map jsTruthy).getD false = false) : jsOr a b = b := by
  cases a with
  | none => rfl
  | some v =>
    simp at ha
    simp [jsOr, ha]

/-- A falsy (or absent) first operand makes optional `||` return the
second. -/
theorem jsOrOpt_falsy (a b : Option Json)
    (ha : (a.map jsTruthy).getD false = false) : jsOrOpt a b = b := by
  cases a with
  | none => rfl
  | some v =>
    simp at ha
    simp [jsOrOpt, ha]

/-- Structure of a successfully normalized issue: its `filePath` is the
`file || filePath || 'unknown'` fallback chain over the source object's
fields. -/
theorem normIssue_ok_filePath (issue : Json) (r : ReviewIssue)
    (h : normIssue issue = .ok r) :
    ∃ f fp, jsGet issue "file" = .ok f ∧ jsGet issue "filePath" = .ok fp ∧
      r.filePath = jsOr (jsOrOpt f fp) (.str "unknown") := by
  cases issue with
  | null => exact Except.noConfusion h
  | bool b =>
    refine ⟨none, none, rfl, rfl, ?_⟩
    injection h with h2
    rw [← h2]
  | num n =>
    refine ⟨none, none, rfl, rfl, ?_⟩
    injection h with h2
    rw [← h2]
  | str s =>
    refine ⟨none, none, rfl, rfl, ?_⟩
    injection h with h2
    rw [← h2]
  | arr l =>
    refine ⟨none, none, rfl, rfl, ?_⟩
    injection h with h2
    rw [← h2]
  | obj fields =>
    unfold normIssue at h
    simp only [jsGet, except_bind_ok] at h
    cases hsev : mapSeverityJs (jsOr ((fields.find? fun p => p.1 == "severity").map
        Prod.snd) (Json.str "INFO")) with
    | error e =>
      rw [hsev, except_bind_error] at h
      exact Except.noConfusion h
    | ok sev =>
      rw [hsev, except_bind_ok] at h
      cases hcat : mapCategoryJs (jsOr ((fields.find? fun p => p.1 == "category").map
          Prod.snd) (Json.str "")) with
      | error e =>
        rw [hcat, except_bind_error] at h
        exact Except.noConfusion h
      | ok cat =>
        rw [hcat, except_bind_ok, except_pure_eq_ok] at h
        refine ⟨(fields.find? fun p : String × Json => p.1 == "file").map Prod.snd,
          (fields.find? fun p : String × Json => p.1 == "filePath").map Prod.snd,
          rfl, rfl, ?_⟩
        injection h with h2
        rw [← h2]

/-- C10: every successfully normalized issue has a truthy `filePath`, and
when the source object's `file` and `filePath` fields are both absent or
falsy (for example, empty strings), the normalized `filePath` is the string
"unknown". -/
theorem normIssue_filePath_default (issue : Json) (r : ReviewIssue)
    (h : normIssue issue = .ok r) :
    jsTruthy r.filePath = true ∧
    (∀ f fp, jsGet issue "file" = .ok f → jsGet issue "filePath" = .ok fp →
      (f.map jsTruthy).getD false = false →
      (fp.map jsTruthy).getD false = false →
      r.filePath = .str "unknown") := by
  obtain ⟨f, fp, hf, hfp, hpath⟩ := normIssue_ok_filePath issue r h
  constructor
  · rw [hpath]
    exact jsOr_default_truthy _ _ (by decide)
  · intro f' fp' hf' hfp' hft hfpt
    have hff : f = f' := by
      have := hf.symm.trans hf'
      injection this
    have hfpfp : fp = fp' := by
      have := hfp.symm.trans hfp'
      injection this
    subst hff
    subst hfpfp
    rw [hpath, jsOrOpt_falsy _ _ hft, jsOr_falsy _ _ hfpt]

/-- Witness for C10: an issue object whose `file` field is the empty string
and which has no `filePath` field normalizes with `filePath` "unknown". -/
theorem normIssue_filePath_default_witness :
    normIssue c10issue = .ok c10result ∧
    jsTruthy c10result.filePath = true ∧
    c10result.filePath = .str "unknown" :=
  ⟨rfl, (normIssue_filePath_default c10issue c10result rfl).1,
   (normIssue_filePath_default c10issue c10result rfl).2
     (some (.str "")) none rfl rfl rfl rfl⟩

/-- C9 counterexample: with a present branch and an absent baseBranch,
`loadReviewPrompt`'s rendered PR-context section substitutes the default
text "main" for the absent baseBranch instead of omitting the field. -/
theorem prContextSection_defaults_absent_baseBranch :
    c9pr.baseBranch = none ∧
    strIncludes (prContextSection c9pr) "**Branch**: feature-x" = true ∧
    strIncludes (prContextSection c9pr) "main" = true ∧
    strIncludes (prContextSection c9pr) "â†’ main" = true :=
  ⟨rfl, by decide, by decide, by decide⟩

/-- C9 (amended): in `buildPrompt`'s PR-context section every absent or
falsy PR field is omitted (the branch line needs both branch and
baseBranch); in `loadReviewPrompt`'s section absent title, number,
description, author and branch are omitted, but an absent baseBranch with a
present branch renders as the default "main" rather than being omitted. -/
theorem prompt_absent_fields_omitted (pr : PRContext) :
    (strTruthy pr.title = false →
      buildPromptPrContextSection pr =
        buildPromptPrContextSection { pr with title := none } ∧
      prContextSection pr = prContextSection { pr with title := none }) ∧
    (strTruthy pr.description = false →
      buildPromptPrContextSection pr =
        buildPromptPrContextSection { pr with description := none } ∧
      prContextSection pr = prContextSection { pr with description := none }) ∧
    ((pr.number.map jsTruthy).getD false = false →
      buildPromptPrContextSection pr =
        buildPromptPrContextSection { pr with number := none } ∧
      prContextSection pr = prContextSection { pr with number := none }) ∧
    (strTruthy pr.author = false →
      buildPromptPrContextSection pr =
        buildPromptPrContextSection { pr with author := none } ∧
      prContextSection pr = prContextSection { pr with author := none }) ∧
    (strTruthy pr.branch = false →
      buildPromptPrContextSection pr =
        buildPromptPrContextSection { pr with branch := none, baseBranch := none } ∧
      prContextSection pr =
        prContextSection { pr with branch := none, baseBranch := none }) ∧
    (strTruthy pr.baseBranch = false →
      buildPromptPrContextSection pr =
        buildPromptPrContextSection { pr with branch := none, baseBranch := none } ∧
      prContextSection pr = prContextSection { pr with baseBranch := some "main" }) := by
  have hnone : strTruthy (none : Option String) = false := rfl
  refine ⟨fun h => ⟨?_, ?_⟩, fun h => ⟨?_, ?_⟩, fun h => ⟨?_, ?_⟩, fun h => ⟨?_, ?_⟩,
    fun h => ⟨?_, ?_⟩, fun h => ⟨?_, ?_⟩⟩
  · simp [buildPromptPrContextSection, buildPromptChangedFilesBlock, h, hnone]
  · simp [prContextSection, h, hnone]
  · simp [buildPromptPrContextSection, buildPromptChangedFilesBlock, h, hnone]
  · simp [prContextSection, h, hnone]
  · cases hn : pr.number with
    | none => simp [buildPromptPrContextSection, buildPromptChangedFilesBlock, hn]
    | some v =>
      rw [hn] at h
      simp at h
      simp [buildPromptPrContextSection, buildPromptChangedFilesBlock, hn, h]
  · cases hn : pr.number with
    | none => simp [prContextSection, hn]
    | some v =>
      rw [hn] at h
      simp at h
      simp [prContextSection, hn, h]
  · simp [buildPromptPrContextSection, buildPromptChangedFilesBlock, h, hnone]
  · simp [prContextSection, h, hnone]
  · simp [buildPromptPrContextSection, buildPromptChangedFilesBlock, h, hnone]
  · simp [prContextSection, h, hnone]
  · simp [buildPromptPrContextSection, buildPromptChangedFilesBlock, h, hnone]
  · have hb : strOr (pr.baseBranch.getD "") "main" = "main" := by
      cases hbb : pr.baseBranch with
      | none => rfl
      | some s =>
        rw [hbb] at h
        simp only [strTruthy, decide_eq_false_iff_not, not_not] at h
        simp [strOr, h]
    have hb2 : strOr "main" "main" = "main" := rfl
    simp [prContextSection, hb, hb2]

/-- Witness for C9 (amended): a PR context with no author renders the same
sections as one with the author field removed. -/
theorem prompt_absent_fields_omitted_witness :
    strTruthy (PRContext.author { title := some "T", author := none }) = false ∧
    buildPromptPrContextSection { title := some "T", author := none } =
      buildPromptPrContextSection { title := some "T" } ∧
    prContextSection { title := some "T", author := none } =
      prContextSection { title := some "T" } :=
  ⟨rfl,
   ((prompt_absent_fields_omitted { title := some "T", author := none }).2.2.2.1 rfl).1,
   ((prompt_absent_fields_omitted { title := some "T", author := none }).2.2.2.1 rfl).2⟩

end CodeReview
